import Mathlib

/-!
# users_ms: the storage core (`pkg/storage/fstorage.go`)

A shallow embedding of the `Storage` session type of `fstorage.go`:

* Go `interface{}` cell values are `Value`; a Go `error` is `Option GoError`
  (`none` is the nil error);
* a function that can panic (index out of range, nil dereference) returns
  `Outcome.panic`;
* the pgx driver is external to the repository, so it is a parameter: a
  `Driver` answers every call from the history of calls made so far, and each
  operation threads the session (`Storage`) and the list of driver calls it has
  issued (oldest first);
* receivers and parameter structs are non-nil values, so the `s == nil` half of
  the guard `s == nil || s.conn == nil` is excluded by the type and the
  `s.conn == nil` half is kept.
-/

namespace Fstorage

/-! ## Values, errors, outcomes -/

/-- A Go `interface{}` cell value as far as the storage core looks at it. -/
inductive Value where
  | null
  | int (n : Int)
  | str (s : String)
  deriving DecidableEq, Repr

/-- A non-nil Go `error`, identified by its message. -/
abbrev GoError := String

/-- Result of a Go call: it returns a value and an `error`, or it panics. -/
inductive Outcome (α : Type) where
  | ret (val : α) (err : Option GoError)
  | panic
  deriving DecidableEq, Repr

/-- The call returned a non-nil error. -/
def Outcome.failed {α : Type} : Outcome α → Bool
  | .ret _ (some _) => true
  | _ => false

/-! ## String helpers used by `generateUpdateQuery` -/

/-- Go `strings.HasPrefix(s, p)`. -/
def hasPrefix (s p : String) : Bool := p.data.isPrefixOf s.data

/-- Go `strings.TrimPrefix(s, p)`. -/
def trimPrefix (s p : String) : String :=
  if hasPrefix s p then ⟨s.data.drop p.length⟩ else s

/-- Go `strings.Join(xs, sep)`. -/
def joinStrings (sep : String) : List String → String
  | [] => ""
  | [x] => x
  | x :: y :: r => x ++ sep ++ joinStrings sep (y :: r)

/-- Go `fmt.Sprintf("%s=$%d", name, n)`. -/
def clauseText (name : String) (n : Nat) : String :=
  name ++ "=$" ++ toString n

/-! ## `generateUpdateQuery` (fstorage.go 524-549) -/

/-- The three accumulators of `generateUpdateQuery`. -/
structure GenState where
  setClauses : List String
  whereClauses : List String
  args : List Value
  deriving DecidableEq, Repr

/-- Accumulators before the loop: three empty slices. -/
def GenState.init : GenState := ⟨[], [], []⟩

/-- The clause update of one loop iteration (lines 532-540): a field with the
`@` marker appends a WHERE clause; any other field appends a SET clause when
`len(setClauses) <= i` and otherwise overwrites `setClauses[i]`. -/
def genClause (st : GenState) (i : Nat) (field : String) : GenState :=
  if hasPrefix field "@" then
    { st with whereClauses :=
        st.whereClauses ++ [clauseText (trimPrefix field "@") (st.args.length + 1)] }
  else if st.setClauses.length ≤ i then
    { st with setClauses := st.setClauses ++ [clauseText field (st.args.length + 1)] }
  else
    { st with setClauses := st.setClauses.set i (clauseText field (st.args.length + 1)) }

/-- One loop iteration (lines 532-541): the clause update, then
`args = append(args, row[i])`; `row[i]` out of range is a panic (`none`). -/
def genStep (row : List Value) (st : GenState) (i : Nat) (field : String) :
    Option GenState :=
  let st1 := genClause st i field
  match row[i]? with
  | none => none
  | some v => some { st1 with args := st1.args ++ [v] }

/-- The loop `for i, field := range fields` from index `i` on. -/
def genLoop (row : List Value) : List String → Nat → GenState → Option GenState
  | [], _, st => some st
  | f :: fs, i, st =>
    match genStep row st i f with
    | none => none
    | some st1 => genLoop row fs (i + 1) st1

/-- Final `fmt.Sprintf("UPDATE %s SET %s WHERE %s", ...)` (lines 544-547). -/
def updateText (tabName : String) (st : GenState) : String :=
  "UPDATE " ++ tabName ++ " SET " ++ joinStrings ", " st.setClauses ++
    " WHERE " ++ joinStrings " AND " st.whereClauses

/-- The function `generateUpdateQuery(tabName, fields, row)`; `none` is the
index-out-of-range panic of `row[i]`. -/
def generateUpdateQuery (tabName : String) (fields : List String) (row : List Value) :
    Option (String × List Value) :=
  match genLoop row fields 0 GenState.init with
  | none => none
  | some st => some (updateText tabName st, st.args)

/-! ## `convertToInterfaceSlice` (fstorage.go 462-505) -/

/-- One struct field as reflection sees it: its value and `CanInterface()`. -/
structure Field where
  value : Value
  canInterface : Bool
  deriving DecidableEq, Repr

/-- One element of the reflected slice, by what `Index(i).Elem()` is.
`structPtr` is an element whose `Elem()` is a valid struct value with the given
fields: a non-nil pointer to a struct (an interface element holding a struct
value behaves the same way). On `nilPtr` (a nil pointer or nil interface)
`Elem()` is the zero `Value` and `CanInterface()` panics. `other` is an
element on which `Elem()` or `NumField()` panics: a struct or other
non-pointer value, or a pointer or interface whose target is not a struct. -/
inductive Elem where
  | structPtr (fields : List Field)
  | nilPtr
  | other
  deriving DecidableEq, Repr

/-- What `reflect.ValueOf(data)` is. -/
inductive ReflData where
  | notSlice
  | slice (elems : List Elem)
  deriving DecidableEq, Repr

/-- The inner loop (lines 493-501): `row[j]` is the field value when the field
can be interfaced, and keeps the zero value nil when it cannot. -/
def extractRow (fields : List Field) (fieldCount : Nat) : List Value :=
  (fields.take fieldCount).map (fun f => if f.canInterface then f.value else Value.null)

/-- The outer loop (lines 479-503) over the remaining elements. An element
reached through `Index(i).Elem()` of a value made by `reflect.ValueOf` is never
read-only, so `CanInterface()` is true on every valid struct value. -/
def convertRows : List Elem → Outcome (List (List Value))
  | [] => .ret [] none
  | .structPtr fields :: rest =>
    if fields.length < 5 then .ret [] (some "not enough fields in slice")
    else
      match convertRows rest with
      | .ret rows none => .ret (extractRow fields (fields.length - 5) :: rows) none
      | .ret _ (some e) => .ret [] (some e)
      | .panic => .panic
  | _ :: _ => .panic

/-- The function `convertToInterfaceSlice(data)` (a returned nil slice is the
empty list): not a slice is an error, `sliceLen == 0` returns `nil, nil`
before any field is counted, and the check of element 0 at lines 471-477 is
the same check the loop repeats at `i = 0`. -/
def convertToInterfaceSlice : ReflData → Outcome (List (List Value))
  | .notSlice => .ret [] (some "data is not a slice")
  | .slice [] => .ret [] none
  | .slice (e :: rest) => convertRows (e :: rest)

/-! ## The driver -/

/-- Handle of a `pgx.Tx` value. -/
abbrev TxId := Nat

/-- Handle of a `*pgx.Conn` value. -/
abbrev ConnId := Nat

/-- The calls the storage core makes on pgx / pgxscan. -/
inductive Call where
  | beginTx (conn : ConnId)
  | select (tx : TxId) (query : String) (args : List Value)
  | exec (tx : TxId) (query : String) (args : List Value)
  | copyFrom (tx : TxId) (tabName : String) (fields : List String) (rows : List (List Value))
  | commit (tx : TxId)
  | rollback (tx : TxId)
  | close (conn : ConnId)
  deriving DecidableEq, Repr

/-- What the driver answers: the `error`, the transaction handle (read after
`beginTx` only) and `RowsAffected()` (read after `exec` only). -/
structure Reply where
  err : Option GoError
  tx : TxId
  rowsAffected : Int
  deriving DecidableEq, Repr

/-- A driver answers a call from the calls made before it. -/
abbrev Driver := List Call → Call → Reply

/-! ## Session data (fstorage.go 16-54) -/

/-- The Go struct `StorageParams` (the context is not modelled). -/
structure StorageParams where
  Dsn : String
  AppName : String
  AutoClose : Bool
  AutoCommit : Bool
  deriving DecidableEq, Repr

/-- The Go struct `Storage`: `conn` and `tx` are nil (`none`) or a handle. -/
structure Storage where
  conn : Option ConnId
  settings : StorageParams
  tx : Option TxId
  deriving DecidableEq, Repr

/-- The Go struct `QueryParams` (the destination is not modelled). -/
structure QueryParams where
  QueryString : String
  Args : List Value
  deriving DecidableEq, Repr

/-- The dynamic type of `CopyParams.Source`: the nil interface, a
`[][]interface{}`, or anything else (seen through reflection). -/
inductive Source where
  | nilSource
  | rows (data : List (List Value))
  | refl (data : ReflData)
  deriving DecidableEq, Repr

/-- The Go struct `CopyParams`. -/
structure CopyParams where
  TabName : String
  Fields : List String
  Source : Source
  deriving DecidableEq, Repr

/-- Result of one method call: its outcome, the session afterwards and all
driver calls made so far, oldest first. -/
structure Step (α : Type) where
  out : Outcome α
  s : Storage
  trace : List Call

/-! ## Transaction methods (fstorage.go 92-119) and `Release` (227-230) -/

/-- The method `TxBegin`: always calls `s.conn.BeginTx`; on success stores the
new transaction in `s.tx`. A nil `conn` is dereferenced inside the driver. -/
def TxBegin (d : Driver) (s : Storage) (tr : List Call) : Step (Option TxId) :=
  match s.conn with
  | none => ⟨.panic, s, tr⟩
  | some c =>
    match (d tr (.beginTx c)).err with
    | some e => ⟨.ret none (some e), s, tr ++ [.beginTx c]⟩
    | none =>
      ⟨.ret (some (d tr (.beginTx c)).tx) none,
        { s with tx := some (d tr (.beginTx c)).tx }, tr ++ [.beginTx c]⟩

/-- The method `TxCommit`: `s.tx.Commit`; a method call on the nil `s.tx` panics. -/
def TxCommit (d : Driver) (s : Storage) (tr : List Call) : Step Unit :=
  match s.tx with
  | none => ⟨.panic, s, tr⟩
  | some t => ⟨.ret () (d tr (.commit t)).err, s, tr ++ [.commit t]⟩

/-- The method `TxEnd`: the same body as `TxCommit`. -/
def TxEnd (d : Driver) (s : Storage) (tr : List Call) : Step Unit :=
  match s.tx with
  | none => ⟨.panic, s, tr⟩
  | some t => ⟨.ret () (d tr (.commit t)).err, s, tr ++ [.commit t]⟩

/-- The method `TxRollback`: `s.tx.Rollback`. -/
def TxRollback (d : Driver) (s : Storage) (tr : List Call) : Step Unit :=
  match s.tx with
  | none => ⟨.panic, s, tr⟩
  | some t => ⟨.ret () (d tr (.rollback t)).err, s, tr ++ [.rollback t]⟩

/-- The method `Release`: `s.conn.Close`; the `conn` field is not cleared. -/
def Release (d : Driver) (s : Storage) (tr : List Call) : Step Unit :=
  match s.conn with
  | none => ⟨.panic, s, tr⟩
  | some c => ⟨.ret () (d tr (.close c)).err, s, tr ++ [.close c]⟩

/-! ## Blocks shared by the operations -/

/-- The begin-or-reuse block that every operation repeats (lines 134-142,
186-194, 261-269, 332-340, 421-429): with `s.tx == nil` call `TxBegin`, return
its error, else store the transaction; otherwise take `s.tx`. -/
def acquireTx (d : Driver) (s : Storage) (tr : List Call) : Step (Option TxId) :=
  match s.tx with
  | some t => ⟨.ret (some t) none, s, tr⟩
  | none =>
    match TxBegin d s tr with
    | ⟨.panic, s1, tr1⟩ => ⟨.panic, s1, tr1⟩
    | ⟨.ret _ (some e), s1, tr1⟩ => ⟨.ret none (some e), s1, tr1⟩
    | ⟨.ret v none, s1, tr1⟩ => ⟨.ret v none, { s1 with tx := v }, tr1⟩

/-- The error block (lines 146-154, 199-207, 283-291, 368-376): under
`AutoCommit` roll back and return the rollback error if there is one, else
return `err` as it is; the returned value is `v`. -/
def rollbackEnd {α : Type} (d : Driver) (s : Storage) (tr : List Call) (t : TxId)
    (v : α) (err : Option GoError) : Step α :=
  if s.settings.AutoCommit then
    match (d tr (.rollback t)).err with
    | some e => ⟨.ret v (some e), s, tr ++ [.rollback t]⟩
    | none => ⟨.ret v err, s, tr ++ [.rollback t]⟩
  else ⟨.ret v err, s, tr⟩

/-- The commit block (lines 157-162, 210-215, 294-299, 378-383, 445-450):
under `AutoCommit` commit; the result is the commit error, if any. -/
def commitEnd (d : Driver) (s : Storage) (tr : List Call) (t : TxId) :
    Option GoError × List Call :=
  if s.settings.AutoCommit then ((d tr (.commit t)).err, tr ++ [.commit t])
  else (none, tr)

/-- The close block (lines 164-169, 217-222): under `AutoClose` call
`Release` and return its error, else return `v` with a nil error. -/
def closeEnd {α : Type} (d : Driver) (s : Storage) (tr : List Call) (v0 v : α) : Step α :=
  if s.settings.AutoClose then
    match Release d s tr with
    | ⟨.ret _ (some e), s1, tr1⟩ => ⟨.ret v0 (some e), s1, tr1⟩
    | ⟨.ret _ none, s1, tr1⟩ => ⟨.ret v none, s1, tr1⟩
    | ⟨.panic, s1, tr1⟩ => ⟨.panic, s1, tr1⟩
  else ⟨.ret v none, s, tr⟩

/-! ## The operations -/

/-- The method `RunQuery` (lines 122-171). -/
def RunQuery (d : Driver) (s : Storage) (tr : List Call) (qp : QueryParams) : Step Unit :=
  match s.conn with
  | none => ⟨.ret () (some "storage is not ready to query running"), s, tr⟩
  | some _ =>
    match acquireTx d s tr with
    | ⟨.panic, s1, tr1⟩ => ⟨.panic, s1, tr1⟩
    | ⟨.ret _ (some e), s1, tr1⟩ => ⟨.ret () (some e), s1, tr1⟩
    | ⟨.ret none none, s1, tr1⟩ => ⟨.panic, s1, tr1⟩
    | ⟨.ret (some t) none, s1, tr1⟩ =>
      match (d tr1 (.select t qp.QueryString qp.Args)).err with
      | some e =>
        rollbackEnd d s1 (tr1 ++ [.select t qp.QueryString qp.Args]) t () (some e)
      | none =>
        match commitEnd d s1 (tr1 ++ [.select t qp.QueryString qp.Args]) t with
        | (some e, tr2) => ⟨.ret () (some e), s1, tr2⟩
        | (none, tr2) => closeEnd d s1 tr2 () ()

/-- The method `ExecuteQuery` (lines 174-225): the error block is entered on
`err != nil || res.RowsAffected() == 0` and returns `0, err`. -/
def ExecuteQuery (d : Driver) (s : Storage) (tr : List Call) (qp : QueryParams) : Step Int :=
  match s.conn with
  | none => ⟨.ret 0 (some "storage is not ready to query running"), s, tr⟩
  | some _ =>
    match acquireTx d s tr with
    | ⟨.panic, s1, tr1⟩ => ⟨.panic, s1, tr1⟩
    | ⟨.ret _ (some e), s1, tr1⟩ => ⟨.ret 0 (some e), s1, tr1⟩
    | ⟨.ret none none, s1, tr1⟩ => ⟨.panic, s1, tr1⟩
    | ⟨.ret (some t) none, s1, tr1⟩ =>
      let res := d tr1 (.exec t qp.QueryString qp.Args)
      if res.err.isSome || res.rowsAffected == 0 then
        rollbackEnd d s1 (tr1 ++ [.exec t qp.QueryString qp.Args]) t 0 res.err
      else
        match commitEnd d s1 (tr1 ++ [.exec t qp.QueryString qp.Args]) t with
        | (some e, tr2) => ⟨.ret 0 (some e), s1, tr2⟩
        | (none, tr2) => closeEnd d s1 tr2 0 res.rowsAffected

/-- The type switch on the source (lines 246-254, 317-325): a
`[][]interface{}` is taken as it is, anything else goes through
`convertToInterfaceSlice` (the nil interface reflects as an invalid value,
which is not a slice). -/
def sourceRows : Source → Outcome (List (List Value))
  | .rows data => .ret data none
  | .nilSource => convertToInterfaceSlice .notSlice
  | .refl data => convertToInterfaceSlice data

/-- The method `CopyToDatabase` (lines 233-301). -/
def CopyToDatabase (d : Driver) (s : Storage) (tr : List Call) (cp : CopyParams) : Step Unit :=
  match s.conn with
  | none => ⟨.ret () (some "storage is not ready to copy data to database"), s, tr⟩
  | some _ =>
    match sourceRows cp.Source with
    | .panic => ⟨.panic, s, tr⟩
    | .ret _ (some e) => ⟨.ret () (some e), s, tr⟩
    | .ret data none =>
      match acquireTx d s tr with
      | ⟨.panic, s1, tr1⟩ => ⟨.panic, s1, tr1⟩
      | ⟨.ret _ (some e), s1, tr1⟩ => ⟨.ret () (some e), s1, tr1⟩
      | ⟨.ret none none, s1, tr1⟩ => ⟨.panic, s1, tr1⟩
      | ⟨.ret (some t) none, s1, tr1⟩ =>
        match (d tr1 (.copyFrom t cp.TabName cp.Fields data)).err with
        | some e =>
          rollbackEnd d s1 (tr1 ++ [.copyFrom t cp.TabName cp.Fields data]) t () (some e)
        | none =>
          match commitEnd d s1 (tr1 ++ [.copyFrom t cp.TabName cp.Fields data]) t with
          | (some e, tr2) => ⟨.ret () (some e), s1, tr2⟩
          | (none, tr2) => ⟨.ret () none, s1, tr2⟩

/-- The SET list built at lines 346-351: `field = $i+1` joined by `, `. -/
def sliceSetList : List String → Nat → String
  | [], _ => ""
  | f :: fs, i =>
    (if i != 0 then ", " else "") ++ f ++ " = $" ++ toString (i + 1) ++ sliceSetList fs (i + 1)

/-- The statement text built at lines 345-352. -/
def sliceQuery (tabName : String) (fields : List String) : String :=
  "UPDATE " ++ tabName ++ " SET " ++ sliceSetList fields 0 ++
    " WHERE id = $" ++ toString (fields.length + 1)

/-- The row loop of `UpdateFromSlice` (lines 343-365): the arguments are the
row without its first cell followed by that first cell (`row[0]` of an empty
row panics); the first failing `Exec` breaks the loop with its error. -/
def sliceLoop (d : Driver) (t : TxId) (tabName : String) (fields : List String) :
    List (List Value) → List Call → Outcome Unit × List Call
  | [], tr => (.ret () none, tr)
  | [] :: _, tr => (.panic, tr)
  | (x :: xs) :: rest, tr =>
    match (d tr (.exec t (sliceQuery tabName fields) (xs ++ [x]))).err with
    | some e => (.ret () (some e), tr ++ [.exec t (sliceQuery tabName fields) (xs ++ [x])])
    | none =>
      sliceLoop d t tabName fields rest
        (tr ++ [.exec t (sliceQuery tabName fields) (xs ++ [x])])

/-- The method `UpdateFromSlice` (lines 304-385). -/
def UpdateFromSlice (d : Driver) (s : Storage) (tr : List Call) (qp : CopyParams) :
    Step Unit :=
  match s.conn with
  | none => ⟨.ret () (some "storage is not ready to copy data to database"), s, tr⟩
  | some _ =>
    match sourceRows qp.Source with
    | .panic => ⟨.panic, s, tr⟩
    | .ret _ (some e) => ⟨.ret () (some e), s, tr⟩
    | .ret data none =>
      match acquireTx d s tr with
      | ⟨.panic, s1, tr1⟩ => ⟨.panic, s1, tr1⟩
      | ⟨.ret _ (some e), s1, tr1⟩ => ⟨.ret () (some e), s1, tr1⟩
      | ⟨.ret none none, s1, tr1⟩ => ⟨.panic, s1, tr1⟩
      | ⟨.ret (some t) none, s1, tr1⟩ =>
        match sliceLoop d t qp.TabName qp.Fields data tr1 with
        | (.panic, tr2) => ⟨.panic, s1, tr2⟩
        | (.ret _ (some e), tr2) => rollbackEnd d s1 tr2 t () (some e)
        | (.ret _ none, tr2) =>
          match commitEnd d s1 tr2 t with
          | (some e, tr3) => ⟨.ret () (some e), s1, tr3⟩
          | (none, tr3) => ⟨.ret () none, s1, tr3⟩

/-- The row loop of `Update` (lines 432-442): `generateUpdateQuery` (which
panics on a row shorter than the field list), then `Exec`; a failing `Exec`
rolls back, whatever `AutoCommit` is, and returns the rollback error if there
is one, else the `Exec` error. A nil error in the result means that the loop
ran to its end. -/
def updateLoop (d : Driver) (t : TxId) (tabName : String) (fields : List String) :
    List (List Value) → List Call → Outcome Unit × List Call
  | [], tr => (.ret () none, tr)
  | row :: rest, tr =>
    match generateUpdateQuery tabName fields row with
    | none => (.panic, tr)
    | some (textQuery, args) =>
      match (d tr (.exec t textQuery args)).err with
      | some e =>
        match (d (tr ++ [.exec t textQuery args]) (.rollback t)).err with
        | some err => (.ret () (some err), tr ++ [.exec t textQuery args] ++ [.rollback t])
        | none => (.ret () (some e), tr ++ [.exec t textQuery args] ++ [.rollback t])
      | none => updateLoop d t tabName fields rest (tr ++ [.exec t textQuery args])

/-- The method `Update` (lines 388-452): `sourceSlice[0]` is read without a
length check, so a source without rows panics. -/
def Update (d : Driver) (s : Storage) (tr : List Call) (qp : CopyParams) : Step Unit :=
  match s.conn with
  | none => ⟨.ret () (some "storage is not ready to copy data to database"), s, tr⟩
  | some _ =>
    if qp.TabName = "" then ⟨.ret () (some "tab name is empty"), s, tr⟩
    else if qp.Fields.length = 0 then ⟨.ret () (some "fields is empty"), s, tr⟩
    else
      match qp.Source with
      | .nilSource => ⟨.ret () (some "source is empty"), s, tr⟩
      | .refl _ => ⟨.ret () (some "source is not a slice"), s, tr⟩
      | .rows sourceSlice =>
        match sourceSlice.head? with
        | none => ⟨.panic, s, tr⟩
        | some row0 =>
          if qp.Fields.length ≠ row0.length then
            ⟨.ret () (some "fields count is not equal to source"), s, tr⟩
          else
            match acquireTx d s tr with
            | ⟨.panic, s1, tr1⟩ => ⟨.panic, s1, tr1⟩
            | ⟨.ret _ (some e), s1, tr1⟩ => ⟨.ret () (some e), s1, tr1⟩
            | ⟨.ret none none, s1, tr1⟩ => ⟨.panic, s1, tr1⟩
            | ⟨.ret (some t) none, s1, tr1⟩ =>
              match updateLoop d t qp.TabName qp.Fields sourceSlice tr1 with
              | (.panic, tr2) => ⟨.panic, s1, tr2⟩
              | (.ret _ (some e), tr2) => ⟨.ret () (some e), s1, tr2⟩
              | (.ret _ none, tr2) =>
                match commitEnd d s1 tr2 t with
                | (some e, tr3) => ⟨.ret () (some e), s1, tr3⟩
                | (none, tr3) => ⟨.ret () none, s1, tr3⟩

/-! ## Properties the statements below speak about -/

/-- Whether iteration `i` of `generateUpdateQuery` takes the overwrite branch
`setClauses[i] = ...` (line 538). -/
def overwrites (st : GenState) (i : Nat) (field : String) : Bool :=
  !hasPrefix field "@" && !decide (st.setClauses.length ≤ i)

/-- Whether some iteration of the loop from index `i` on takes the overwrite
branch. -/
def genLoopOverwrites (row : List Value) : List String → Nat → GenState → Bool
  | [], _, _ => false
  | f :: fs, i, st =>
    overwrites st i f ||
      (match genStep row st i f with
       | none => false
       | some st1 => genLoopOverwrites row fs (i + 1) st1)

/-- The call `c` begins no transaction and, when it is a statement, commit or
rollback, it is issued on the transaction `t`. -/
def Call.staysOn (t : TxId) : Call → Bool
  | .beginTx _ => false
  | .select t1 _ _ => t1 == t
  | .exec t1 _ _ => t1 == t
  | .copyFrom t1 _ _ _ => t1 == t
  | .commit t1 => t1 == t
  | .rollback t1 => t1 == t
  | .close _ => true

/-- The trace `tr1` extends `tr` by calls that all stay on transaction `t`:
no `BeginTx` among them, and every statement, commit and rollback on `t`. -/
def Extends (t : TxId) (tr tr1 : List Call) : Prop :=
  ∃ suf, tr1 = tr ++ suf ∧ ∀ c ∈ suf, Call.staysOn t c = true

/-- Whether a call is a `BeginTx`. -/
def Call.isBegin : Call → Bool
  | .beginTx _ => true
  | _ => false

/-- Whether a call is a `Commit`. -/
def Call.isCommit : Call → Bool
  | .commit _ => true
  | _ => false

/-- Whether a call is a `Rollback`. -/
def Call.isRollback : Call → Bool
  | .rollback _ => true
  | _ => false

/-- Whether a call is a `Close`. -/
def Call.isClose : Call → Bool
  | .close _ => true
  | _ => false

/-- A driver on which every begin, statement, commit and rollback made after a
`Close` fails. Nothing is asked of a repeated `Close` (on pgx it returns nil). -/
def ClosedFails (d : Driver) : Prop :=
  ∀ (hist : List Call) (c : Call) (k : ConnId),
    Call.close k ∈ hist → c.isClose = false → ∃ e, (d hist c).err = some e

/-! ## Concrete drivers and sessions used as instances -/

/-- Every call succeeds; transactions get handle 1, one row is affected. -/
def okDriver : Driver := fun _ _ => ⟨none, 1, 1⟩

/-- Every call succeeds, statements affect no row. -/
def zeroRowsDriver : Driver := fun _ _ => ⟨none, 1, 0⟩

/-- Statements fail, everything else succeeds. -/
def stmtFailDriver : Driver := fun _ c =>
  match c with
  | .select _ _ _ => ⟨some "statement failed", 0, 0⟩
  | .exec _ _ _ => ⟨some "statement failed", 0, 0⟩
  | .copyFrom _ _ _ _ => ⟨some "statement failed", 0, 0⟩
  | _ => ⟨none, 1, 1⟩

/-- Hands out handle 2 for every new transaction. -/
def secondTxDriver : Driver := fun _ _ => ⟨none, 2, 1⟩

/-- Succeeds until the connection is closed; after that a repeated `Close`
still returns nil and every other call fails. -/
def strictDriver : Driver := fun hist c =>
  if hist.any Call.isClose && !c.isClose then ⟨some "conn closed", 0, 0⟩ else ⟨none, 1, 1⟩

/-- Settings with the two flags as given. -/
def mkParams (autoClose autoCommit : Bool) : StorageParams :=
  ⟨"postgres://db", "app", autoClose, autoCommit⟩

/-- A freshly opened session on connection 0: no transaction yet. -/
def freshSession (autoClose autoCommit : Bool) : Storage :=
  ⟨some 0, mkParams autoClose autoCommit, none⟩

/-- A session on connection 0 that already holds transaction 1. -/
def busySession (autoClose autoCommit : Bool) : Storage :=
  ⟨some 0, mkParams autoClose autoCommit, some 1⟩

/-- One record of seven fields: two data fields, of which the second cannot be
interfaced, then five trailing fields. -/
def sampleRecords : List (List Field) :=
  [[⟨.int 1, true⟩, ⟨.str "a", false⟩, ⟨.null, false⟩, ⟨.null, false⟩, ⟨.null, false⟩,
    ⟨.str "token", true⟩, ⟨.int 9, true⟩]]

/-- A mutation request. -/
def sampleQuery : QueryParams := ⟨"update users_ref set is_deleted = true", []⟩

/-! ## Theorems -/

/-- C1 (as stated, refuted): on table `t`, fields `@id, name` and row `7, Bob`
the result of `generateUpdateQuery` is not the statement
`UPDATE t SET name=$1 WHERE id=$2` with arguments `Bob, 7`. -/
theorem C1_scenario_refuted :
    generateUpdateQuery "t" ["@id", "name"] [.int 7, .str "Bob"] ≠
      some ("UPDATE t SET name=$1 WHERE id=$2", [.str "Bob", .int 7]) := by
  decide

/-- C1 (amended): on table `t`, fields `@id, name` and row `7, Bob`,
`generateUpdateQuery` numbers the placeholders in field order and returns the
row cells in field order: `UPDATE t SET name=$2 WHERE id=$1` with arguments
`7, Bob`. -/
theorem C1_scenario_field_order :
    generateUpdateQuery "t" ["@id", "name"] [.int 7, .str "Bob"] =
      some ("UPDATE t SET name=$2 WHERE id=$1", [.int 7, .str "Bob"]) := by
  decide


/-! ### `generateUpdateQuery`: clause and argument counts -/

/-- One iteration keeps `len(setClauses) <= i`, adds exactly one clause and one
argument, and does not take the overwrite branch. -/
theorem genStep_counts (row : List Value) (st st1 : GenState) (i : Nat) (f : String)
    (h : genStep row st i f = some st1)
    (hi : st.setClauses.length ≤ i)
    (hc : st.setClauses.length + st.whereClauses.length = st.args.length) :
    st1.setClauses.length ≤ i + 1 ∧
      st1.setClauses.length + st1.whereClauses.length = st1.args.length ∧
      st1.args.length = st.args.length + 1 ∧ overwrites st i f = false := by
  unfold genStep at h
  cases hr : row[i]? with
  | none => simp [hr] at h
  | some v =>
    simp only [hr, Option.some.injEq] at h
    subst h
    unfold genClause overwrites
    by_cases hp : hasPrefix f "@" = true
    · simp [hp]; omega
    · simp [hp, hi]; omega

/-- The whole loop keeps the number of clauses equal to the number of
arguments, adds one argument per field, and never overwrites. -/
theorem genLoop_counts (row : List Value) (fields : List String) :
    ∀ (i : Nat) (st st1 : GenState), genLoop row fields i st = some st1 →
      st.setClauses.length ≤ i →
      st.setClauses.length + st.whereClauses.length = st.args.length →
      st1.setClauses.length + st1.whereClauses.length = st1.args.length ∧
        st1.args.length = st.args.length + fields.length ∧
        genLoopOverwrites row fields i st = false := by
  induction fields with
  | nil =>
    intro i st st1 h _ hc
    simp only [genLoop, Option.some.injEq] at h
    subst h
    simp [genLoopOverwrites, hc]
  | cons f fs ih =>
    intro i st st1 h hi hc
    unfold genLoop at h
    cases hs : genStep row st i f with
    | none => simp [hs] at h
    | some st2 =>
      simp only [hs] at h
      obtain ⟨h1, h2, h3, h4⟩ := genStep_counts row st st2 i f hs hi hc
      obtain ⟨k1, k2, k3⟩ := ih (i + 1) st2 st1 h h1 h2
      refine ⟨k1, ?_, ?_⟩
      · simp only [List.length_cons]; omega
      · simp [genLoopOverwrites, h4, hs, k3]

/-- With a row at least as long as the remaining fields the loop does not
panic. -/
theorem genLoop_total (row : List Value) (fields : List String) :
    ∀ (i : Nat) (st : GenState), i + fields.length ≤ row.length →
      ∃ st1, genLoop row fields i st = some st1 := by
  induction fields with
  | nil => intro i st _; exact ⟨st, rfl⟩
  | cons f fs ih =>
    intro i st hlen
    simp only [List.length_cons] at hlen
    have hi : i < row.length := by omega
    obtain ⟨v, hv⟩ : ∃ v, row[i]? = some v := ⟨row[i], List.getElem?_eq_getElem hi⟩
    simp only [genLoop, genStep, hv]
    exact ih (i + 1) _ (by omega)

/-- C9 (as stated, refuted): there are no field list and row, the row at least
as long as the field list, for which `generateUpdateQuery` takes the overwrite
branch or ends with more arguments than SET and WHERE clauses. -/
theorem C9_no_overwrite_no_excess :
    ¬ ∃ (fields : List String) (row : List Value) (st : GenState),
        fields.length ≤ row.length ∧
        genLoop row fields 0 GenState.init = some st ∧
        (genLoopOverwrites row fields 0 GenState.init = true ∨
          st.setClauses.length + st.whereClauses.length < st.args.length) := by
  rintro ⟨fields, row, st, _, hrun, hbad⟩
  obtain ⟨h1, _, h3⟩ :=
    genLoop_counts row fields 0 GenState.init st hrun (by simp [GenState.init])
      (by simp [GenState.init])
  rcases hbad with hb | hb
  · simp [h3] at hb
  · omega

/-- C9 (amended): for every field list and every row at least as long as the
field list, `generateUpdateQuery` returns, never takes the overwrite branch,
and ends with exactly one argument per field and as many arguments as SET
clauses plus WHERE clauses. -/
theorem C9_counts_agree (tabName : String) (fields : List String) (row : List Value)
    (hlen : fields.length ≤ row.length) :
    ∃ st, genLoop row fields 0 GenState.init = some st ∧
      generateUpdateQuery tabName fields row = some (updateText tabName st, st.args) ∧
      genLoopOverwrites row fields 0 GenState.init = false ∧
      st.args.length = fields.length ∧
      st.setClauses.length + st.whereClauses.length = st.args.length := by
  obtain ⟨st, hst⟩ := genLoop_total row fields 0 GenState.init (by omega)
  obtain ⟨h1, h2, h3⟩ :=
    genLoop_counts row fields 0 GenState.init st hst (by simp [GenState.init])
      (by simp [GenState.init])
  refine ⟨st, hst, ?_, h3, ?_, h1⟩
  · simp [generateUpdateQuery, hst]
  · simpa [GenState.init] using h2

/-- C9 (instance): fields `@id, name, age` with row `7, Bob, 30, extra`. -/
theorem C9_counts_agree_witness :
    ["@id", "name", "age"].length ≤ [Value.int 7, .str "Bob", .int 30, .null].length ∧
    ∃ st, genLoop [Value.int 7, .str "Bob", .int 30, .null] ["@id", "name", "age"] 0
        GenState.init = some st ∧
      generateUpdateQuery "t" ["@id", "name", "age"] [Value.int 7, .str "Bob", .int 30, .null] =
        some (updateText "t" st, st.args) ∧
      genLoopOverwrites [Value.int 7, .str "Bob", .int 30, .null] ["@id", "name", "age"] 0
        GenState.init = false ∧
      st.args.length = ["@id", "name", "age"].length ∧
      st.setClauses.length + st.whereClauses.length = st.args.length :=
  ⟨by decide, C9_counts_agree "t" ["@id", "name", "age"]
    [Value.int 7, .str "Bob", .int 30, .null] (by decide)⟩


/-! ### `convertToInterfaceSlice` -/

/-- Entry `j` of an extracted row: the field value when the field can be
interfaced, nil otherwise. -/
theorem extractRow_entry (fields : List Field) (n j : Nat) (f : Field)
    (hj : j < n) (hf : fields[j]? = some f) :
    (extractRow fields n)[j]? = some (if f.canInterface then f.value else Value.null) := by
  simp [extractRow, List.getElem?_map, List.getElem?_take, hj, hf]

/-- An extracted row has `fieldCount` cells when the record has at least that
many fields. -/
theorem extractRow_length (fields : List Field) (n : Nat) (hn : n ≤ fields.length) :
    (extractRow fields n).length = n := by
  simp [extractRow, List.length_take, hn]

/-- On records that all have `T >= 5` fields the loop returns one extracted
row per record, in order. -/
theorem convertRows_uniform (T : Nat) (h5 : 5 ≤ T) (recs : List (List Field))
    (hT : ∀ r ∈ recs, r.length = T) :
    convertRows (recs.map Elem.structPtr) =
      .ret (recs.map (fun r => extractRow r (T - 5))) none := by
  induction recs with
  | nil => rfl
  | cons r rest ih =>
    have hr : r.length = T := hT r (List.mem_cons_self r rest)
    have hrest := ih (fun x hx => hT x (List.mem_cons_of_mem r hx))
    have h5r : ¬ T < 5 := by omega
    simp only [List.map_cons, convertRows, hrest, hr, h5r, if_false]

/-- C5 (as stated, refuted): it is not true that on every slice of records
with `T < 5` fields each `convertToInterfaceSlice` fails; the empty slice
returns without error. -/
theorem C5_empty_slice_does_not_fail :
    ¬ ∀ (recs : List (List Field)) (T : Nat), (∀ r ∈ recs, r.length = T) → T < 5 →
        (convertToInterfaceSlice (.slice (recs.map Elem.structPtr))).failed = true := by
  intro h
  have h0 := h [] 0 (by simp) (by decide)
  simp [convertToInterfaceSlice, Outcome.failed] at h0

/-- C5 (amended): on a slice of `N` non-nil pointers to records with `T` fields
each, `convertToInterfaceSlice` returns no rows and no error when `N = 0`,
fails when `N >= 1` and `T < 5`, and when `T >= 5` returns exactly `N` rows in
input order, each of length `T - 5`, entry `j` of row `i` being the value of
field `j` of record `i` when that field can be interfaced and nil when not. -/
theorem C5_extract_rows (recs : List (List Field)) (T : Nat)
    (hT : ∀ r ∈ recs, r.length = T) :
    (recs = [] → convertToInterfaceSlice (.slice (recs.map Elem.structPtr)) = .ret [] none) ∧
    (recs ≠ [] → T < 5 →
      (convertToInterfaceSlice (.slice (recs.map Elem.structPtr))).failed = true) ∧
    (5 ≤ T → ∃ rows,
      convertToInterfaceSlice (.slice (recs.map Elem.structPtr)) = .ret rows none ∧
      rows.length = recs.length ∧
      ∀ (i : Nat) (r : List Field), recs[i]? = some r →
        ∃ row, rows[i]? = some row ∧ row.length = T - 5 ∧
          ∀ (j : Nat), j < T - 5 →
            ∃ f, r[j]? = some f ∧
              row[j]? = some (if f.canInterface then f.value else Value.null)) := by
  refine ⟨?_, ?_, ?_⟩
  · intro h; subst h; rfl
  · intro hne hlt
    cases recs with
    | nil => exact absurd rfl hne
    | cons r rest =>
      have hr : r.length < 5 := by
        have := hT r (List.mem_cons_self r rest); omega
      simp [convertToInterfaceSlice, convertRows, hr, Outcome.failed]
  · intro h5
    refine ⟨recs.map (fun r => extractRow r (T - 5)), ?_, by simp, ?_⟩
    · cases recs with
      | nil => rfl
      | cons r rest =>
        have := convertRows_uniform T h5 (r :: rest) hT
        simpa [convertToInterfaceSlice] using this
    · intro i r hir
      have hmem : r ∈ recs := List.getElem?_mem hir
      have hlen : r.length = T := hT r hmem
      refine ⟨extractRow r (T - 5), by simp [List.getElem?_map, hir],
        extractRow_length r (T - 5) (by omega), ?_⟩
      intro j hj
      have hjr : j < r.length := by omega
      exact ⟨r[j], List.getElem?_eq_getElem hjr,
        extractRow_entry r (T - 5) j r[j] hj (List.getElem?_eq_getElem hjr)⟩

/-- C5 (instance): one record of seven fields, which yields one row of two
cells, the second one nil. -/
theorem C5_extract_rows_witness :
    (∀ r ∈ sampleRecords, r.length = 7) ∧
    convertToInterfaceSlice (.slice (sampleRecords.map Elem.structPtr)) =
      .ret [[.int 1, .null]] none ∧
    ((sampleRecords = [] →
        convertToInterfaceSlice (.slice (sampleRecords.map Elem.structPtr)) = .ret [] none) ∧
      (sampleRecords ≠ [] → 7 < 5 →
        (convertToInterfaceSlice (.slice (sampleRecords.map Elem.structPtr))).failed = true) ∧
      (5 ≤ 7 → ∃ rows,
        convertToInterfaceSlice (.slice (sampleRecords.map Elem.structPtr)) = .ret rows none ∧
        rows.length = sampleRecords.length ∧
        ∀ (i : Nat) (r : List Field), sampleRecords[i]? = some r →
          ∃ row, rows[i]? = some row ∧ row.length = 7 - 5 ∧
            ∀ (j : Nat), j < 7 - 5 →
              ∃ f, r[j]? = some f ∧
                row[j]? = some (if f.canInterface then f.value else Value.null))) :=
  ⟨by decide, by decide, C5_extract_rows sampleRecords 7 (by decide)⟩

/-! ### Executions that end outside the specified behaviour -/

/-- C2 (code at the failing input): on a ready auto-commit session whose
statement runs without error and affects no row, `ExecuteQuery` rolls back and
returns `0` with a nil error; without auto-commit it returns `0` with a nil
error and makes no further call. -/
theorem C2_zero_rows_returns_nil_error :
    (ExecuteQuery zeroRowsDriver (freshSession false true) [] sampleQuery).out = .ret 0 none ∧
    (ExecuteQuery zeroRowsDriver (freshSession false true) [] sampleQuery).trace =
      [.beginTx 0, .exec 1 sampleQuery.QueryString sampleQuery.Args, .rollback 1] ∧
    (ExecuteQuery zeroRowsDriver (freshSession false false) [] sampleQuery).out = .ret 0 none ∧
    (ExecuteQuery zeroRowsDriver (freshSession false false) [] sampleQuery).trace =
      [.beginTx 0, .exec 1 sampleQuery.QueryString sampleQuery.Args] := by
  decide

/-- C8 (code at the failing inputs): `Update` with a non-empty table name, a
non-empty field list and a row-tuple source panics when the source has no
rows; panics on a second row shorter than the field list after having
executed the statement of the first row; and on a second row longer than the
field list executes a statement for that row and returns no error. -/
theorem C8_update_panics :
    (Update okDriver (freshSession false true) [] ⟨"t", ["@id", "name"], .rows []⟩).out =
      .panic ∧
    (Update okDriver (freshSession false true) []
      ⟨"t", ["@id", "name"], .rows [[.int 7, .str "Bob"], [.int 8]]⟩).out = .panic ∧
    (Update okDriver (freshSession false true) []
      ⟨"t", ["@id", "name"], .rows [[.int 7, .str "Bob"], [.int 8]]⟩).trace =
      [.beginTx 0, .exec 1 "UPDATE t SET name=$2 WHERE id=$1" [.int 7, .str "Bob"]] ∧
    (Update okDriver (freshSession false true) []
      ⟨"t", ["@id", "name"],
        .rows [[.int 7, .str "Bob"], [.int 8, .str "Al", .int 3]]⟩).out = .ret () none ∧
    (Update okDriver (freshSession false true) []
      ⟨"t", ["@id", "name"],
        .rows [[.int 7, .str "Bob"], [.int 8, .str "Al", .int 3]]⟩).trace =
      [.beginTx 0, .exec 1 "UPDATE t SET name=$2 WHERE id=$1" [.int 7, .str "Bob"],
        .exec 1 "UPDATE t SET name=$2 WHERE id=$1" [.int 8, .str "Al"], .commit 1] := by
  decide


/-! ### Operations on a session that already holds a transaction -/

theorem Extends.refl (t : TxId) (tr : List Call) : Extends t tr tr :=
  ⟨[], by simp, by simp⟩

theorem Extends.snoc {t : TxId} {tr tr1 : List Call} (h : Extends t tr tr1) (c : Call)
    (hc : Call.staysOn t c = true) : Extends t tr (tr1 ++ [c]) := by
  obtain ⟨suf, h1, h2⟩ := h
  refine ⟨suf ++ [c], by simp [h1], ?_⟩
  intro x hx
  rcases List.mem_append.1 hx with hx | hx
  · exact h2 x hx
  · simp at hx; subst hx; exact hc

/-- The error block leaves the session alone and at most rolls back `t`. -/
theorem rollbackEnd_reuse {α : Type} (d : Driver) (s : Storage) (tr0 tr : List Call)
    (t : TxId) (v : α) (err : Option GoError) (h : Extends t tr0 tr) :
    (rollbackEnd d s tr t v err).s = s ∧
      Extends t tr0 (rollbackEnd d s tr t v err).trace := by
  unfold rollbackEnd
  split
  · split
    · exact ⟨rfl, h.snoc _ (by simp [Call.staysOn])⟩
    · exact ⟨rfl, h.snoc _ (by simp [Call.staysOn])⟩
  · exact ⟨rfl, h⟩

/-- The commit block at most commits `t`. -/
theorem commitEnd_reuse (d : Driver) (s : Storage) (tr0 tr : List Call) (t : TxId)
    (h : Extends t tr0 tr) : Extends t tr0 (commitEnd d s tr t).2 := by
  unfold commitEnd
  split
  · exact h.snoc _ (by simp [Call.staysOn])
  · exact h

/-- The close block leaves the session alone and at most closes the connection. -/
theorem closeEnd_reuse {α : Type} (d : Driver) (s : Storage) (tr0 tr : List Call)
    (t : TxId) (v0 v : α) (h : Extends t tr0 tr) :
    (closeEnd d s tr v0 v).s = s ∧ Extends t tr0 (closeEnd d s tr v0 v).trace := by
  unfold closeEnd Release
  split
  · cases hc : s.conn with
    | none => simp; exact h
    | some c =>
      simp only []
      cases hr : (d tr (Call.close c)).err <;> simp <;>
        exact h.snoc _ (by simp [Call.staysOn])
  · exact ⟨rfl, h⟩

/-- The method `RunQuery` on a session holding `t`. -/
theorem RunQuery_reuse (d : Driver) (s : Storage) (tr : List Call) (qp : QueryParams)
    (t : TxId) (ht : s.tx = some t) :
    (RunQuery d s tr qp).s = s ∧ Extends t tr (RunQuery d s tr qp).trace := by
  unfold RunQuery
  cases hc : s.conn with
  | none => exact ⟨rfl, Extends.refl t tr⟩
  | some c =>
    simp only [acquireTx, ht]
    have h1 : Extends t tr (tr ++ [Call.select t qp.QueryString qp.Args]) :=
      (Extends.refl t tr).snoc _ (by simp [Call.staysOn])
    cases hsel : (d tr (Call.select t qp.QueryString qp.Args)).err with
    | some e => simpa using rollbackEnd_reuse d s tr _ t () (some e) h1
    | none =>
      simp only []
      have h2 := commitEnd_reuse d s tr _ t h1
      rcases hcm : commitEnd d s (tr ++ [Call.select t qp.QueryString qp.Args]) t with ⟨e, tr2⟩
      rw [hcm] at h2
      cases e with
      | some e => exact ⟨rfl, h2⟩
      | none => exact closeEnd_reuse d s tr tr2 t () () h2

/-- The method `ExecuteQuery` on a session holding `t`. -/
theorem ExecuteQuery_reuse (d : Driver) (s : Storage) (tr : List Call) (qp : QueryParams)
    (t : TxId) (ht : s.tx = some t) :
    (ExecuteQuery d s tr qp).s = s ∧ Extends t tr (ExecuteQuery d s tr qp).trace := by
  unfold ExecuteQuery
  cases hc : s.conn with
  | none => exact ⟨rfl, Extends.refl t tr⟩
  | some c =>
    simp only [acquireTx, ht]
    have h1 : Extends t tr (tr ++ [Call.exec t qp.QueryString qp.Args]) :=
      (Extends.refl t tr).snoc _ (by simp [Call.staysOn])
    split
    · exact rollbackEnd_reuse d s tr _ t 0 _ h1
    · have h2 := commitEnd_reuse d s tr _ t h1
      rcases hcm : commitEnd d s (tr ++ [Call.exec t qp.QueryString qp.Args]) t with ⟨e, tr2⟩
      rw [hcm] at h2
      cases e with
      | some e => exact ⟨rfl, h2⟩
      | none => exact closeEnd_reuse d s tr tr2 t 0 _ h2

/-- The method `CopyToDatabase` on a session holding `t`. -/
theorem CopyToDatabase_reuse (d : Driver) (s : Storage) (tr : List Call) (cp : CopyParams)
    (t : TxId) (ht : s.tx = some t) :
    (CopyToDatabase d s tr cp).s = s ∧ Extends t tr (CopyToDatabase d s tr cp).trace := by
  unfold CopyToDatabase
  cases hc : s.conn with
  | none => exact ⟨rfl, Extends.refl t tr⟩
  | some c =>
    simp only []
    rcases hsrc : sourceRows cp.Source with ⟨data, _ | e⟩ | _
    · simp only [acquireTx, ht]
      have h1 : Extends t tr (tr ++ [Call.copyFrom t cp.TabName cp.Fields data]) :=
        (Extends.refl t tr).snoc _ (by simp [Call.staysOn])
      cases hst : (d tr (Call.copyFrom t cp.TabName cp.Fields data)).err with
      | some e => simpa using rollbackEnd_reuse d s tr _ t () (some e) h1
      | none =>
        simp only []
        have h2 := commitEnd_reuse d s tr _ t h1
        rcases hcm : commitEnd d s (tr ++ [Call.copyFrom t cp.TabName cp.Fields data]) t
          with ⟨e, tr2⟩
        rw [hcm] at h2
        cases e with
        | some e => exact ⟨rfl, h2⟩
        | none => exact ⟨rfl, h2⟩
    · exact ⟨rfl, Extends.refl t tr⟩
    · exact ⟨rfl, Extends.refl t tr⟩

/-- The row loop of `UpdateFromSlice` only executes statements on `t`. -/
theorem sliceLoop_reuse (d : Driver) (t : TxId) (tabName : String) (fields : List String)
    (tr0 : List Call) (data : List (List Value)) :
    ∀ tr, Extends t tr0 tr → Extends t tr0 (sliceLoop d t tabName fields data tr).2 := by
  induction data with
  | nil => intro tr h; exact h
  | cons row rest ih =>
    intro tr h
    cases row with
    | nil => exact h
    | cons x xs =>
      have h1 := h.snoc (Call.exec t (sliceQuery tabName fields) (xs ++ [x]))
        (by simp [Call.staysOn])
      unfold sliceLoop
      cases hst : (d tr (Call.exec t (sliceQuery tabName fields) (xs ++ [x]))).err with
      | some e => exact h1
      | none => exact ih _ h1

/-- The row loop of `Update` only executes statements and rollbacks on `t`. -/
theorem updateLoop_reuse (d : Driver) (t : TxId) (tabName : String) (fields : List String)
    (tr0 : List Call) (data : List (List Value)) :
    ∀ tr, Extends t tr0 tr → Extends t tr0 (updateLoop d t tabName fields data tr).2 := by
  induction data with
  | nil => intro tr h; exact h
  | cons row rest ih =>
    intro tr h
    unfold updateLoop
    cases hq : generateUpdateQuery tabName fields row with
    | none => exact h
    | some qa =>
      obtain ⟨q, args⟩ := qa
      have h1 := h.snoc (Call.exec t q args) (by simp [Call.staysOn])
      simp only []
      cases hst : (d tr (Call.exec t q args)).err with
      | some e =>
        simp only []
        cases hrb : (d (tr ++ [Call.exec t q args]) (Call.rollback t)).err <;>
          exact h1.snoc _ (by simp [Call.staysOn])
      | none => exact ih _ h1

/-- The method `UpdateFromSlice` on a session holding `t`. -/
theorem UpdateFromSlice_reuse (d : Driver) (s : Storage) (tr : List Call) (qp : CopyParams)
    (t : TxId) (ht : s.tx = some t) :
    (UpdateFromSlice d s tr qp).s = s ∧ Extends t tr (UpdateFromSlice d s tr qp).trace := by
  unfold UpdateFromSlice
  cases hc : s.conn with
  | none => exact ⟨rfl, Extends.refl t tr⟩
  | some c =>
    simp only []
    rcases hsrc : sourceRows qp.Source with ⟨data, _ | e⟩ | _
    · simp only [acquireTx, ht]
      have h1 := sliceLoop_reuse d t qp.TabName qp.Fields tr data tr (Extends.refl t tr)
      rcases hl : sliceLoop d t qp.TabName qp.Fields data tr with ⟨⟨_, _ | e⟩ | _, tr2⟩
      · rw [hl] at h1
        simp only []
        have h2 := commitEnd_reuse d s tr tr2 t h1
        rcases hcm : commitEnd d s tr2 t with ⟨e, tr3⟩
        rw [hcm] at h2
        cases e with
        | some e => exact ⟨rfl, h2⟩
        | none => exact ⟨rfl, h2⟩
      · rw [hl] at h1
        exact rollbackEnd_reuse d s tr tr2 t () (some e) h1
      · rw [hl] at h1
        exact ⟨rfl, h1⟩
    · exact ⟨rfl, Extends.refl t tr⟩
    · exact ⟨rfl, Extends.refl t tr⟩

/-- The method `Update` on a session holding `t`. -/
theorem Update_reuse (d : Driver) (s : Storage) (tr : List Call) (qp : CopyParams)
    (t : TxId) (ht : s.tx = some t) :
    (Update d s tr qp).s = s ∧ Extends t tr (Update d s tr qp).trace := by
  unfold Update
  cases hc : s.conn with
  | none => exact ⟨rfl, Extends.refl t tr⟩
  | some c =>
    simp only []
    split
    · exact ⟨rfl, Extends.refl t tr⟩
    · split
      · exact ⟨rfl, Extends.refl t tr⟩
      · cases hsrc : qp.Source with
        | nilSource => exact ⟨rfl, Extends.refl t tr⟩
        | refl _ => exact ⟨rfl, Extends.refl t tr⟩
        | rows data =>
          simp only []
          cases hh : data.head? with
          | none => exact ⟨rfl, Extends.refl t tr⟩
          | some row0 =>
            simp only []
            split
            · exact ⟨rfl, Extends.refl t tr⟩
            · simp only [acquireTx, ht]
              have h1 := updateLoop_reuse d t qp.TabName qp.Fields tr data tr (Extends.refl t tr)
              rcases hl : updateLoop d t qp.TabName qp.Fields data tr with
                ⟨⟨_, _ | e⟩ | _, tr2⟩
              · rw [hl] at h1
                simp only []
                have h2 := commitEnd_reuse d s tr tr2 t h1
                rcases hcm : commitEnd d s tr2 t with ⟨e, tr3⟩
                rw [hcm] at h2
                cases e with
                | some e => exact ⟨rfl, h2⟩
                | none => exact ⟨rfl, h2⟩
              · rw [hl] at h1
                exact ⟨rfl, h1⟩
              · rw [hl] at h1
                exact ⟨rfl, h1⟩


/-- On a session with a connection that holds `t`, `RunQuery` issues its select
on `t` as its first call, and after it only calls that stay on `t`. -/
theorem RunQuery_first (d : Driver) (s : Storage) (tr : List Call) (qp : QueryParams)
    (t : TxId) (c : ConnId) (ht : s.tx = some t) (hc : s.conn = some c) :
    Extends t (tr ++ [Call.select t qp.QueryString qp.Args]) (RunQuery d s tr qp).trace := by
  unfold RunQuery
  simp only [hc, acquireTx, ht]
  have h1 := Extends.refl t (tr ++ [Call.select t qp.QueryString qp.Args])
  cases hsel : (d tr (Call.select t qp.QueryString qp.Args)).err with
  | some e => simpa using (rollbackEnd_reuse d s _ _ t () (some e) h1).2
  | none =>
    simp only []
    have h2 := commitEnd_reuse d s _ _ t h1
    rcases hcm : commitEnd d s (tr ++ [Call.select t qp.QueryString qp.Args]) t with ⟨e, tr2⟩
    rw [hcm] at h2
    cases e with
    | some e => exact h2
    | none => exact (closeEnd_reuse d s _ tr2 t () () h2).2

/-- On a session with a connection that holds `t`, `ExecuteQuery` issues its
statement on `t` as its first call, and after it only calls that stay on `t`. -/
theorem ExecuteQuery_first (d : Driver) (s : Storage) (tr : List Call) (qp : QueryParams)
    (t : TxId) (c : ConnId) (ht : s.tx = some t) (hc : s.conn = some c) :
    Extends t (tr ++ [Call.exec t qp.QueryString qp.Args]) (ExecuteQuery d s tr qp).trace := by
  unfold ExecuteQuery
  simp only [hc, acquireTx, ht]
  have h1 := Extends.refl t (tr ++ [Call.exec t qp.QueryString qp.Args])
  split
  · exact (rollbackEnd_reuse d s _ _ t 0 _ h1).2
  · have h2 := commitEnd_reuse d s _ _ t h1
    rcases hcm : commitEnd d s (tr ++ [Call.exec t qp.QueryString qp.Args]) t with ⟨e, tr2⟩
    rw [hcm] at h2
    cases e with
    | some e => exact h2
    | none => exact (closeEnd_reuse d s _ tr2 t 0 _ h2).2

/-- On a session with a connection that holds `t`, `CopyToDatabase` with rows
`data` issues its copy on `t` as its first call, and after it only calls that
stay on `t`. -/
theorem CopyToDatabase_first (d : Driver) (s : Storage) (tr : List Call) (cp : CopyParams)
    (data : List (List Value)) (t : TxId) (c : ConnId) (ht : s.tx = some t)
    (hc : s.conn = some c) (hsrc : sourceRows cp.Source = .ret data none) :
    Extends t (tr ++ [Call.copyFrom t cp.TabName cp.Fields data])
      (CopyToDatabase d s tr cp).trace := by
  unfold CopyToDatabase
  simp only [hc, hsrc, acquireTx, ht]
  have h1 := Extends.refl t (tr ++ [Call.copyFrom t cp.TabName cp.Fields data])
  cases hst : (d tr (Call.copyFrom t cp.TabName cp.Fields data)).err with
  | some e => simpa using (rollbackEnd_reuse d s _ _ t () (some e) h1).2
  | none =>
    simp only []
    have h2 := commitEnd_reuse d s _ _ t h1
    rcases hcm : commitEnd d s (tr ++ [Call.copyFrom t cp.TabName cp.Fields data]) t
      with ⟨e, tr2⟩
    rw [hcm] at h2
    cases e with
    | some e => exact h2
    | none => exact h2

/-- C10: on a session whose transaction field holds `t`, whatever the driver
and whatever calls were made before (commits and rollbacks of `t` included),
each of `RunQuery`, `ExecuteQuery`, `CopyToDatabase`, `UpdateFromSlice` and
`Update` leaves the field at `t`, begins no transaction and issues every
statement, commit and rollback on `t`; and `TxBegin`, `TxEnd`, `TxCommit`,
`TxRollback` and `Release` do not clear the field either. -/
theorem C10_transaction_field_never_cleared (d : Driver) (s : Storage) (tr : List Call)
    (t : TxId) (ht : s.tx = some t) :
    (∀ qp, (RunQuery d s tr qp).s.tx = some t ∧ Extends t tr (RunQuery d s tr qp).trace) ∧
    (∀ qp, (ExecuteQuery d s tr qp).s.tx = some t ∧
      Extends t tr (ExecuteQuery d s tr qp).trace) ∧
    (∀ cp, (CopyToDatabase d s tr cp).s.tx = some t ∧
      Extends t tr (CopyToDatabase d s tr cp).trace) ∧
    (∀ cp, (UpdateFromSlice d s tr cp).s.tx = some t ∧
      Extends t tr (UpdateFromSlice d s tr cp).trace) ∧
    (∀ cp, (Update d s tr cp).s.tx = some t ∧ Extends t tr (Update d s tr cp).trace) ∧
    (TxBegin d s tr).s.tx.isSome = true ∧
    (TxEnd d s tr).s.tx = some t ∧ (TxCommit d s tr).s.tx = some t ∧
    (TxRollback d s tr).s.tx = some t ∧ (Release d s tr).s.tx = some t := by
  refine ⟨?_, ?_, ?_, ?_, ?_, ?_, ?_, ?_, ?_, ?_⟩
  · intro qp
    obtain ⟨h1, h2⟩ := RunQuery_reuse d s tr qp t ht
    exact ⟨by rw [h1, ht], h2⟩
  · intro qp
    obtain ⟨h1, h2⟩ := ExecuteQuery_reuse d s tr qp t ht
    exact ⟨by rw [h1, ht], h2⟩
  · intro cp
    obtain ⟨h1, h2⟩ := CopyToDatabase_reuse d s tr cp t ht
    exact ⟨by rw [h1, ht], h2⟩
  · intro cp
    obtain ⟨h1, h2⟩ := UpdateFromSlice_reuse d s tr cp t ht
    exact ⟨by rw [h1, ht], h2⟩
  · intro cp
    obtain ⟨h1, h2⟩ := Update_reuse d s tr cp t ht
    exact ⟨by rw [h1, ht], h2⟩
  · unfold TxBegin
    cases hc : s.conn with
    | none => simp [ht]
    | some c =>
      simp only []
      cases hb : (d tr (Call.beginTx c)).err <;> simp [ht]
  · simp [TxEnd, ht]
  · simp [TxCommit, ht]
  · simp [TxRollback, ht]
  · unfold Release
    cases hc : s.conn <;> simp [ht]

/-- C10 (instance): the session holding transaction 1, after a commit of it. -/
theorem C10_transaction_field_never_cleared_witness :
    (busySession false true).tx = some 1 ∧
    (RunQuery okDriver (busySession false true) [.beginTx 0, .commit 1] sampleQuery).trace =
      [.beginTx 0, .commit 1, .select 1 sampleQuery.QueryString sampleQuery.Args, .commit 1] ∧
    (RunQuery okDriver (busySession false true) [.beginTx 0, .commit 1] sampleQuery).s.tx =
      some 1 ∧
    Extends 1 [.beginTx 0, .commit 1]
      (RunQuery okDriver (busySession false true) [.beginTx 0, .commit 1] sampleQuery).trace :=
  ⟨rfl, by decide,
    ((C10_transaction_field_never_cleared okDriver (busySession false true)
      [.beginTx 0, .commit 1] 1 rfl).1 sampleQuery).1,
    ((C10_transaction_field_never_cleared okDriver (busySession false true)
      [.beginTx 0, .commit 1] 1 rfl).1 sampleQuery).2⟩

/-- C4 (as stated, refuted): on a session that already holds transaction 1,
`TxBegin` calls `BeginTx` on the connection, returns the new transaction 2 and
replaces the field with it. -/
theorem C4_TxBegin_begins_again :
    (busySession false true).tx = some 1 ∧
    (TxBegin secondTxDriver (busySession false true) []).out = .ret (some 2) none ∧
    (TxBegin secondTxDriver (busySession false true) []).trace = [.beginTx 0] ∧
    (TxBegin secondTxDriver (busySession false true) []).s.tx = some 2 := by
  decide

/-- C4 (amended): on a session with a connection that already holds
transaction `t`, each of `RunQuery`, `ExecuteQuery`, `CopyToDatabase`,
`UpdateFromSlice` and `Update` takes that same transaction: it leaves the
session, its transaction field included, unchanged, makes no `BeginTx` call and
issues every statement, commit and rollback on `t`; `RunQuery`, `ExecuteQuery`
and `CopyToDatabase` (on a source that yields rows) issue their statement on
`t` as their first call. `TxBegin` itself does not look at the field: it
always calls `BeginTx` once and, when that succeeds, returns the new
transaction and stores it in the field; when it fails it returns the error and
leaves the session unchanged. -/
theorem C4_reuse_is_done_by_callers (d : Driver) (s : Storage) (tr : List Call)
    (t : TxId) (c : ConnId) (ht : s.tx = some t) (hc : s.conn = some c) :
    (∀ qp, (RunQuery d s tr qp).s = s ∧
      Extends t (tr ++ [.select t qp.QueryString qp.Args]) (RunQuery d s tr qp).trace) ∧
    (∀ qp, (ExecuteQuery d s tr qp).s = s ∧
      Extends t (tr ++ [.exec t qp.QueryString qp.Args]) (ExecuteQuery d s tr qp).trace) ∧
    (∀ cp, (CopyToDatabase d s tr cp).s = s ∧
      Extends t tr (CopyToDatabase d s tr cp).trace ∧
      ∀ data, sourceRows cp.Source = .ret data none →
        Extends t (tr ++ [.copyFrom t cp.TabName cp.Fields data])
          (CopyToDatabase d s tr cp).trace) ∧
    (∀ cp, (UpdateFromSlice d s tr cp).s = s ∧
      Extends t tr (UpdateFromSlice d s tr cp).trace) ∧
    (∀ cp, (Update d s tr cp).s = s ∧ Extends t tr (Update d s tr cp).trace) ∧
    (acquireTx d s tr).out = .ret (some t) none ∧ (acquireTx d s tr).s = s ∧
    (acquireTx d s tr).trace = tr ∧
    (TxBegin d s tr).trace = tr ++ [.beginTx c] ∧
    ((d tr (.beginTx c)).err = none →
      (TxBegin d s tr).out = .ret (some (d tr (.beginTx c)).tx) none ∧
      (TxBegin d s tr).s.tx = some (d tr (.beginTx c)).tx) ∧
    (∀ e, (d tr (.beginTx c)).err = some e →
      (TxBegin d s tr).out = .ret none (some e) ∧ (TxBegin d s tr).s = s) := by
  refine ⟨?_, ?_, ?_, ?_, ?_, by simp [acquireTx, ht], by simp [acquireTx, ht],
    by simp [acquireTx, ht], ?_, ?_, ?_⟩
  · intro qp
    exact ⟨(RunQuery_reuse d s tr qp t ht).1, RunQuery_first d s tr qp t c ht hc⟩
  · intro qp
    exact ⟨(ExecuteQuery_reuse d s tr qp t ht).1, ExecuteQuery_first d s tr qp t c ht hc⟩
  · intro cp
    exact ⟨(CopyToDatabase_reuse d s tr cp t ht).1, (CopyToDatabase_reuse d s tr cp t ht).2,
      fun data hsrc => CopyToDatabase_first d s tr cp data t c ht hc hsrc⟩
  · intro cp
    exact UpdateFromSlice_reuse d s tr cp t ht
  · intro cp
    exact Update_reuse d s tr cp t ht
  · unfold TxBegin
    cases hb : (d tr (Call.beginTx c)).err <;> simp [hc, hb]
  · intro hb
    simp [TxBegin, hc, hb]
  · intro e hb
    simp [TxBegin, hc, hb]

/-- C4 (instance): the session holding transaction 1 on connection 0, on a
driver that would hand out transaction 2: `RunQuery` and `Update` run on
transaction 1 and begin nothing. -/
theorem C4_reuse_is_done_by_callers_witness :
    (busySession false true).tx = some 1 ∧ (busySession false true).conn = some 0 ∧
    (RunQuery secondTxDriver (busySession false true) [] sampleQuery).trace =
      [.select 1 sampleQuery.QueryString sampleQuery.Args, .commit 1] ∧
    (Update secondTxDriver (busySession false true) []
      ⟨"t", ["@id", "name"], .rows [[.int 7, .str "Bob"]]⟩).trace =
      [.exec 1 "UPDATE t SET name=$2 WHERE id=$1" [.int 7, .str "Bob"], .commit 1] ∧
    (RunQuery secondTxDriver (busySession false true) [] sampleQuery).s =
      busySession false true ∧
    Extends 1 ([] ++ [.select 1 sampleQuery.QueryString sampleQuery.Args])
      (RunQuery secondTxDriver (busySession false true) [] sampleQuery).trace ∧
    (Update secondTxDriver (busySession false true) []
      ⟨"t", ["@id", "name"], .rows [[.int 7, .str "Bob"]]⟩).s = busySession false true ∧
    (TxBegin secondTxDriver (busySession false true) []).trace = [] ++ [.beginTx 0] :=
  ⟨rfl, rfl, by decide, by decide,
    ((C4_reuse_is_done_by_callers secondTxDriver (busySession false true) [] 1 0 rfl
      rfl).1 sampleQuery).1,
    ((C4_reuse_is_done_by_callers secondTxDriver (busySession false true) [] 1 0 rfl
      rfl).1 sampleQuery).2,
    ((C4_reuse_is_done_by_callers secondTxDriver (busySession false true) [] 1 0 rfl
      rfl).2.2.2.2.1 ⟨"t", ["@id", "name"], .rows [[.int 7, .str "Bob"]]⟩).1,
    (C4_reuse_is_done_by_callers secondTxDriver (busySession false true) [] 1 0 rfl
      rfl).2.2.2.2.2.2.2.2.1⟩

/-! ### Auto-commit: rollback on a failed statement, commit and close on success -/

/-- The begin-or-reuse block keeps connection and settings and makes at most
one call, a `BeginTx` on the connection. -/
theorem acquireTx_frame (d : Driver) (s : Storage) (tr : List Call) (c : ConnId)
    (hc : s.conn = some c) :
    (acquireTx d s tr).s.settings = s.settings ∧ (acquireTx d s tr).s.conn = some c ∧
      ((acquireTx d s tr).trace = tr ∨ (acquireTx d s tr).trace = tr ++ [.beginTx c]) := by
  unfold acquireTx TxBegin
  cases ht : s.tx with
  | some t => simp [hc]
  | none =>
    simp only [hc]
    cases hb : (d tr (Call.beginTx c)).err <;> simp [hc]

/-- The begin-or-reuse block stores the transaction it yields. -/
theorem acquireTx_tx (d : Driver) (s s1 : Storage) (tr tr1 : List Call) (t : TxId)
    (h : acquireTx d s tr = ⟨.ret (some t) none, s1, tr1⟩) : s1.tx = some t := by
  unfold acquireTx TxBegin at h
  cases ht : s.tx with
  | some t0 =>
    simp only [ht, Step.mk.injEq, Outcome.ret.injEq, Option.some.injEq, and_true] at h
    obtain ⟨h1, h2, _⟩ := h
    rw [← h2, ht, h1]
  | none =>
    cases hc : s.conn with
    | none => simp [ht, hc] at h
    | some c =>
      simp only [ht, hc] at h
      cases hb : (d tr (Call.beginTx c)).err with
      | some e => simp [hb] at h
      | none =>
        simp only [hb, Step.mk.injEq, Outcome.ret.injEq, Option.some.injEq, and_true] at h
        obtain ⟨h1, h2, _⟩ := h
        rw [← h2, ← h1]

/-- C3: on a session with `AutoCommit` set whose connection is there and whose
transaction `t` has been obtained (begun or reused, with the trace `tr1` after
that step), when the statement of `RunQuery`, `ExecuteQuery` or
`CopyToDatabase` returns the error `e`, the only call made after the statement
is one rollback of `t`, the transaction in the session's field (no commit, no
close), and the operation returns the rollback error when the rollback fails
and `e` when it succeeds. -/
theorem C3_one_rollback_on_failure (d : Driver) (s s1 : Storage) (tr tr1 : List Call)
    (t : TxId) (c : ConnId)
    (hauto : s.settings.AutoCommit = true) (hc : s.conn = some c)
    (hacq : acquireTx d s tr = ⟨.ret (some t) none, s1, tr1⟩) :
    (tr1 = tr ∨ tr1 = tr ++ [.beginTx c]) ∧ s1.tx = some t ∧
    (∀ (qp : QueryParams) (e : GoError),
      (d tr1 (.select t qp.QueryString qp.Args)).err = some e →
      (RunQuery d s tr qp).trace = tr1 ++ [.select t qp.QueryString qp.Args, .rollback t] ∧
      (RunQuery d s tr qp).out = .ret () (some
        ((d (tr1 ++ [.select t qp.QueryString qp.Args]) (.rollback t)).err.getD e))) ∧
    (∀ (qp : QueryParams) (e : GoError),
      (d tr1 (.exec t qp.QueryString qp.Args)).err = some e →
      (ExecuteQuery d s tr qp).trace = tr1 ++ [.exec t qp.QueryString qp.Args, .rollback t] ∧
      (ExecuteQuery d s tr qp).out = .ret 0 (some
        ((d (tr1 ++ [.exec t qp.QueryString qp.Args]) (.rollback t)).err.getD e))) ∧
    (∀ (cp : CopyParams) (data : List (List Value)) (e : GoError),
      sourceRows cp.Source = .ret data none →
      (d tr1 (.copyFrom t cp.TabName cp.Fields data)).err = some e →
      (CopyToDatabase d s tr cp).trace =
        tr1 ++ [.copyFrom t cp.TabName cp.Fields data, .rollback t] ∧
      (CopyToDatabase d s tr cp).out = .ret () (some
        ((d (tr1 ++ [.copyFrom t cp.TabName cp.Fields data]) (.rollback t)).err.getD e))) := by
  obtain ⟨hset, _, htr⟩ := acquireTx_frame d s tr c hc
  rw [hacq] at hset htr
  simp only at hset htr
  have hauto1 : s1.settings.AutoCommit = true := by rw [hset]; exact hauto
  refine ⟨htr, acquireTx_tx d s s1 tr tr1 t hacq, ?_, ?_, ?_⟩
  · intro qp e hst
    unfold RunQuery
    simp only [hc, hacq, hst, rollbackEnd, hauto1, if_true]
    cases hrb : (d (tr1 ++ [Call.select t qp.QueryString qp.Args]) (Call.rollback t)).err <;>
      simp
  · intro qp e hst
    unfold ExecuteQuery
    simp only [hc, hacq, hst, rollbackEnd, hauto1, if_true, Option.isSome_some, Bool.true_or]
    cases hrb : (d (tr1 ++ [Call.exec t qp.QueryString qp.Args]) (Call.rollback t)).err <;>
      simp
  · intro cp data e hsrc hst
    unfold CopyToDatabase
    simp only [hc, hsrc, hacq, hst, rollbackEnd, hauto1, if_true]
    cases hrb : (d (tr1 ++ [Call.copyFrom t cp.TabName cp.Fields data])
      (Call.rollback t)).err <;> simp

/-- C3 (instance): a fresh auto-commit session on a driver whose statements
fail and whose rollback succeeds; `ExecuteQuery` returns the statement error. -/
theorem C3_one_rollback_on_failure_witness :
    (freshSession false true).settings.AutoCommit = true ∧
    (freshSession false true).conn = some 0 ∧
    acquireTx stmtFailDriver (freshSession false true) [] =
      ⟨.ret (some 1) none, busySession false true, [.beginTx 0]⟩ ∧
    (stmtFailDriver [.beginTx 0] (.exec 1 sampleQuery.QueryString sampleQuery.Args)).err =
      some "statement failed" ∧
    (ExecuteQuery stmtFailDriver (freshSession false true) [] sampleQuery).trace =
      [.beginTx 0] ++ [.exec 1 sampleQuery.QueryString sampleQuery.Args, .rollback 1] ∧
    (ExecuteQuery stmtFailDriver (freshSession false true) [] sampleQuery).out =
      .ret 0 (some ((stmtFailDriver
        ([.beginTx 0] ++ [.exec 1 sampleQuery.QueryString sampleQuery.Args])
        (.rollback 1)).err.getD "statement failed")) :=
  ⟨rfl, rfl, rfl, rfl,
    (C3_one_rollback_on_failure stmtFailDriver (freshSession false true)
      (busySession false true) [] [.beginTx 0] 1 0 rfl rfl rfl).2.2.2.1
      sampleQuery "statement failed" rfl⟩

/-- C6: `RunQuery` on a session with a connection, no transaction yet and
`AutoCommit` set, whose begin, select and commit all succeed, makes exactly
the calls begin, select, commit and then, exactly when `AutoClose` is set, one
close: one begin, one commit, no rollback; it returns the close error when
`AutoClose` is set and no error otherwise. -/
theorem C6_fresh_autocommit_query (d : Driver) (s : Storage) (tr : List Call)
    (qp : QueryParams) (c : ConnId)
    (hc : s.conn = some c) (htx : s.tx = none) (hauto : s.settings.AutoCommit = true)
    (hbegin : (d tr (.beginTx c)).err = none)
    (hsel : (d (tr ++ [.beginTx c])
      (.select (d tr (.beginTx c)).tx qp.QueryString qp.Args)).err = none)
    (hcommit : (d (tr ++ [.beginTx c] ++
      [.select (d tr (.beginTx c)).tx qp.QueryString qp.Args])
      (.commit (d tr (.beginTx c)).tx)).err = none) :
    ∃ new, (RunQuery d s tr qp).trace = tr ++ new ∧
      new = [.beginTx c, .select (d tr (.beginTx c)).tx qp.QueryString qp.Args,
        .commit (d tr (.beginTx c)).tx] ++ (if s.settings.AutoClose then [.close c] else []) ∧
      new.countP Call.isBegin = 1 ∧ new.countP Call.isCommit = 1 ∧
      new.countP Call.isRollback = 0 ∧
      new.countP Call.isClose = (if s.settings.AutoClose then 1 else 0) ∧
      (RunQuery d s tr qp).out = .ret ()
        (if s.settings.AutoClose then
          (d (tr ++ [.beginTx c, .select (d tr (.beginTx c)).tx qp.QueryString qp.Args,
            .commit (d tr (.beginTx c)).tx]) (.close c)).err
         else none) := by
  refine ⟨_, ?_, rfl, ?_, ?_, ?_, ?_, ?_⟩
  · unfold RunQuery
    simp only [hc, acquireTx, htx, TxBegin, hbegin, hsel, commitEnd, hauto, if_true, hcommit,
      closeEnd, Release]
    cases hcl : s.settings.AutoClose with
    | false => simp
    | true =>
      simp only [if_true]
      cases hr : (d (tr ++ [Call.beginTx c] ++
        [Call.select (d tr (Call.beginTx c)).tx qp.QueryString qp.Args] ++
        [Call.commit (d tr (Call.beginTx c)).tx]) (Call.close c)).err <;> simp
  · cases s.settings.AutoClose <;> simp [Call.isBegin]
  · cases s.settings.AutoClose <;> simp [Call.isCommit]
  · cases s.settings.AutoClose <;> simp [Call.isRollback]
  · cases s.settings.AutoClose <;> simp [Call.isClose]
  · unfold RunQuery
    simp only [hc, acquireTx, htx, TxBegin, hbegin, hsel, commitEnd, hauto, if_true, hcommit,
      closeEnd, Release]
    cases hcl : s.settings.AutoClose with
    | false => simp
    | true =>
      simp only [if_true, List.append_assoc, List.singleton_append]
      cases hr : (d (tr ++ [Call.beginTx c,
        Call.select (d tr (Call.beginTx c)).tx qp.QueryString qp.Args,
        Call.commit (d tr (Call.beginTx c)).tx]) (Call.close c)).err <;> simp [hr]


/-- C6 (instance): a fresh session with both flags set on a driver where every
call succeeds. -/
theorem C6_fresh_autocommit_query_witness :
    (freshSession true true).conn = some 0 ∧ (freshSession true true).tx = none ∧
    (freshSession true true).settings.AutoCommit = true ∧
    (RunQuery okDriver (freshSession true true) [] sampleQuery).trace =
      [.beginTx 0, .select 1 sampleQuery.QueryString sampleQuery.Args, .commit 1, .close 0] ∧
    (RunQuery okDriver (freshSession true true) [] sampleQuery).out = .ret () none ∧
    ∃ new, (RunQuery okDriver (freshSession true true) [] sampleQuery).trace = [] ++ new ∧
      new.countP Call.isBegin = 1 ∧ new.countP Call.isCommit = 1 ∧
      new.countP Call.isRollback = 0 :=
  ⟨rfl, rfl, rfl, by decide, by decide,
    by
      obtain ⟨new, h1, _, h3, h4, h5, _⟩ :=
        C6_fresh_autocommit_query okDriver (freshSession true true) [] sampleQuery 0
          rfl rfl rfl rfl rfl rfl
      exact ⟨new, h1, h3, h4, h5⟩⟩

/-! ### After auto-close -/

/-- The strict driver fails every call made after a close. -/
theorem strictDriver_closedFails : ClosedFails strictDriver := by
  intro hist c k hk hc
  refine ⟨"conn closed", ?_⟩
  have : hist.any Call.isClose = true := List.any_eq_true.2 ⟨_, hk, rfl⟩
  simp [strictDriver, this, hc]

/-- Under auto-commit on a closed connection the error block returns an error. -/
theorem rollbackEnd_closed {α : Type} (d : Driver) (hd : ClosedFails d) (s : Storage)
    (tr : List Call) (t : TxId) (v : α) (err : Option GoError) (k : ConnId)
    (hauto : s.settings.AutoCommit = true) (hk : Call.close k ∈ tr) :
    (rollbackEnd d s tr t v err).out.failed = true := by
  obtain ⟨e, he⟩ := hd tr (.rollback t) k hk rfl
  simp [rollbackEnd, hauto, he, Outcome.failed]

/-- Under auto-commit on a closed connection the commit block returns an error. -/
theorem commitEnd_closed (d : Driver) (hd : ClosedFails d) (s : Storage)
    (tr : List Call) (t : TxId) (k : ConnId)
    (hauto : s.settings.AutoCommit = true) (hk : Call.close k ∈ tr) :
    ∃ e tr1, commitEnd d s tr t = (some e, tr1) := by
  obtain ⟨e, he⟩ := hd tr (.commit t) k hk rfl
  exact ⟨e, tr ++ [.commit t], by simp [commitEnd, hauto, he]⟩

/-- A successful `ExecuteQuery` that affected rows, on a session with both
flags set, has closed the connection; the session keeps its connection
handle, its settings and a transaction. -/
theorem ExecuteQuery_success (d : Driver) (s : Storage) (tr : List Call) (qp : QueryParams)
    (n : Int) (hclose : s.settings.AutoClose = true) (hauto : s.settings.AutoCommit = true)
    (hok : (ExecuteQuery d s tr qp).out = .ret n none) (hn : n ≠ 0) :
    ∃ c t, s.conn = some c ∧ (ExecuteQuery d s tr qp).s.conn = some c ∧
      (ExecuteQuery d s tr qp).s.tx = some t ∧
      (ExecuteQuery d s tr qp).s.settings = s.settings ∧
      Call.close c ∈ (ExecuteQuery d s tr qp).trace := by
  cases hc : s.conn with
  | none => simp [ExecuteQuery, hc] at hok
  | some c =>
    obtain ⟨hset, hconn1, _⟩ := acquireTx_frame d s tr c hc
    rcases hacq : acquireTx d s tr with ⟨o, s1, tr1⟩
    rw [hacq] at hset hconn1
    simp only at hset hconn1
    have hauto1 : s1.settings.AutoCommit = true := by rw [hset]; exact hauto
    have hclose1 : s1.settings.AutoClose = true := by rw [hset]; exact hclose
    unfold ExecuteQuery at hok ⊢
    simp only [hc, hacq] at hok ⊢
    rcases o with ⟨v, _ | e⟩ | _
    · cases v with
      | none => simp at hok
      | some t =>
        have htx := acquireTx_tx d s s1 tr tr1 t hacq
        simp only at hok ⊢
        split at hok
        · exfalso
          simp only [rollbackEnd, hauto1, if_true] at hok
          split at hok
          all_goals simp at hok
          all_goals exact hn hok.1.symm
        · rename_i hcond
          simp only [hcond, Bool.false_eq_true, if_false]
          simp only [commitEnd, hauto1, if_true] at hok ⊢
          cases hcm : (d (tr1 ++ [Call.exec t qp.QueryString qp.Args]) (Call.commit t)).err with
          | some e => simp [hcm] at hok
          | none =>
            simp only [hcm, closeEnd, hclose1, if_true, Release, hconn1, List.append_assoc,
              List.cons_append, List.nil_append] at hok ⊢
            cases hcl : (d (tr1 ++ [Call.exec t qp.QueryString qp.Args, Call.commit t])
              (Call.close c)).err with
            | some e => simp [hcl] at hok
            | none => exact ⟨c, t, rfl, by simp [hconn1], by simp [htx], by simp [hset], by simp⟩
    · simp at hok
    · simp at hok


/-- The method `RunQuery` on a closed connection returns an error. -/
theorem RunQuery_closed (d : Driver) (hd : ClosedFails d) (s : Storage) (tr : List Call)
    (qp : QueryParams) (c k : ConnId) (t : TxId) (hc : s.conn = some c) (ht : s.tx = some t)
    (hauto : s.settings.AutoCommit = true) (hk : Call.close k ∈ tr) :
    (RunQuery d s tr qp).out.failed = true := by
  obtain ⟨e, he⟩ := hd tr (.select t qp.QueryString qp.Args) k hk rfl
  unfold RunQuery
  simp only [hc, acquireTx, ht, he]
  exact rollbackEnd_closed d hd s _ t () (some e) k hauto (List.mem_append_left _ hk)

/-- The method `ExecuteQuery` on a closed connection returns an error. -/
theorem ExecuteQuery_closed (d : Driver) (hd : ClosedFails d) (s : Storage) (tr : List Call)
    (qp : QueryParams) (c k : ConnId) (t : TxId) (hc : s.conn = some c) (ht : s.tx = some t)
    (hauto : s.settings.AutoCommit = true) (hk : Call.close k ∈ tr) :
    (ExecuteQuery d s tr qp).out.failed = true := by
  obtain ⟨e, he⟩ := hd tr (.exec t qp.QueryString qp.Args) k hk rfl
  unfold ExecuteQuery
  simp only [hc, acquireTx, ht, he, Option.isSome_some, Bool.true_or, if_true]
  exact rollbackEnd_closed d hd s _ t 0 (some e) k hauto (List.mem_append_left _ hk)

/-- The method `CopyToDatabase` on a closed connection returns an error, unless
the conversion of its source panics. -/
theorem CopyToDatabase_closed (d : Driver) (hd : ClosedFails d) (s : Storage)
    (tr : List Call) (cp : CopyParams) (c k : ConnId) (t : TxId) (hc : s.conn = some c)
    (ht : s.tx = some t) (hauto : s.settings.AutoCommit = true) (hk : Call.close k ∈ tr)
    (hsrc : sourceRows cp.Source ≠ .panic) :
    (CopyToDatabase d s tr cp).out.failed = true := by
  unfold CopyToDatabase
  simp only [hc]
  rcases hs : sourceRows cp.Source with ⟨data, _ | e⟩ | _
  · obtain ⟨e, he⟩ := hd tr (.copyFrom t cp.TabName cp.Fields data) k hk rfl
    simp only [acquireTx, ht, he]
    exact rollbackEnd_closed d hd s _ t () (some e) k hauto (List.mem_append_left _ hk)
  · rfl
  · exact absurd hs hsrc

/-- The method `UpdateFromSlice` on a closed connection returns an error, unless
the conversion of its source panics or its first row is empty. -/
theorem UpdateFromSlice_closed (d : Driver) (hd : ClosedFails d) (s : Storage)
    (tr : List Call) (cp : CopyParams) (c k : ConnId) (t : TxId) (hc : s.conn = some c)
    (ht : s.tx = some t) (hauto : s.settings.AutoCommit = true) (hk : Call.close k ∈ tr)
    (hsrc : sourceRows cp.Source ≠ .panic)
    (hrow : ∀ data, sourceRows cp.Source = .ret data none → data.head? ≠ some []) :
    (UpdateFromSlice d s tr cp).out.failed = true := by
  unfold UpdateFromSlice
  simp only [hc]
  rcases hs : sourceRows cp.Source with ⟨data, _ | e⟩ | _
  · simp only [acquireTx, ht]
    cases data with
    | nil =>
      obtain ⟨e, tr1, hcm⟩ := commitEnd_closed d hd s tr t k hauto hk
      simp [sliceLoop, hcm, Outcome.failed]
    | cons row rest =>
      cases row with
      | nil => exact absurd rfl (hrow _ hs)
      | cons x xs =>
        obtain ⟨e, he⟩ :=
          hd tr (.exec t (sliceQuery cp.TabName cp.Fields) (xs ++ [x])) k hk rfl
        simp only [sliceLoop, he]
        exact rollbackEnd_closed d hd s _ t () (some e) k hauto (List.mem_append_left _ hk)
  · rfl
  · exact absurd hs hsrc

/-- The method `Update` on a closed connection returns an error, unless its
source is a row-tuple slice without rows. -/
theorem Update_closed (d : Driver) (hd : ClosedFails d) (s : Storage)
    (tr : List Call) (cp : CopyParams) (c k : ConnId) (t : TxId) (hc : s.conn = some c)
    (ht : s.tx = some t) (hk : Call.close k ∈ tr) (hsrc : cp.Source ≠ .rows []) :
    (Update d s tr cp).out.failed = true := by
  unfold Update
  simp only [hc]
  split
  · rfl
  · split
    · rfl
    · rename_i _ hf
      cases hs : cp.Source with
      | nilSource => rfl
      | refl _ => rfl
      | rows data =>
        cases data with
        | nil => exact absurd hs hsrc
        | cons row0 rest =>
          simp only [List.head?_cons]
          split
          · rfl
          · rename_i hlen
            have hlen1 : 0 + cp.Fields.length ≤ row0.length := by omega
            obtain ⟨st, hst⟩ := genLoop_total row0 cp.Fields 0 GenState.init hlen1
            obtain ⟨e, he⟩ := hd tr (.exec t (updateText cp.TabName st) st.args) k hk rfl
            obtain ⟨e1, he1⟩ := hd (tr ++ [.exec t (updateText cp.TabName st) st.args])
              (.rollback t) k (List.mem_append_left _ hk) rfl
            simp [acquireTx, ht, updateLoop, generateUpdateQuery, hst, he, he1, Outcome.failed]

/-- C7 (code at the failing inputs): on a driver that fails every statement,
commit and rollback after a close, a session with both flags set runs one
successful `ExecuteQuery`, after which the connection has been closed while
the session still holds its connection handle and its transaction. A following
`RunQuery` does return an error (the driver's rollback error, after a select
and a rollback on that transaction); but a following `Update` on a source
without rows, and a following `UpdateFromSlice` on an empty row, panic instead
of returning an error. -/
theorem C7_later_call_panics :
    ClosedFails strictDriver ∧
    (ExecuteQuery strictDriver (freshSession true true) [] sampleQuery).out = .ret 1 none ∧
    Call.close 0 ∈ (ExecuteQuery strictDriver (freshSession true true) [] sampleQuery).trace ∧
    (ExecuteQuery strictDriver (freshSession true true) [] sampleQuery).s =
      busySession true true ∧
    (RunQuery strictDriver
      (ExecuteQuery strictDriver (freshSession true true) [] sampleQuery).s
      (ExecuteQuery strictDriver (freshSession true true) [] sampleQuery).trace
      sampleQuery).out = .ret () (some "conn closed") ∧
    (RunQuery strictDriver
      (ExecuteQuery strictDriver (freshSession true true) [] sampleQuery).s
      (ExecuteQuery strictDriver (freshSession true true) [] sampleQuery).trace
      sampleQuery).trace =
      [.beginTx 0, .exec 1 sampleQuery.QueryString sampleQuery.Args, .commit 1, .close 0,
        .select 1 sampleQuery.QueryString sampleQuery.Args, .rollback 1] ∧
    (Update strictDriver
      (ExecuteQuery strictDriver (freshSession true true) [] sampleQuery).s
      (ExecuteQuery strictDriver (freshSession true true) [] sampleQuery).trace
      ⟨"t", ["@id", "name"], .rows []⟩).out = .panic ∧
    (UpdateFromSlice strictDriver
      (ExecuteQuery strictDriver (freshSession true true) [] sampleQuery).s
      (ExecuteQuery strictDriver (freshSession true true) [] sampleQuery).trace
      ⟨"t", ["name"], .rows [[]]⟩).out = .panic :=
  ⟨strictDriver_closedFails, by decide, by decide, by decide, by decide, by decide, by decide,
    by decide⟩

/-- Outside the panicking inputs the calls after auto-close do fail: on a
session with `AutoClose` and `AutoCommit` set, after an `ExecuteQuery` that
returned a non-zero row count and no error, a close has been issued on the
connection while the session keeps its connection handle and its transaction;
if the driver fails every statement, commit and rollback made after a close,
every following `RunQuery` and `ExecuteQuery` returns an error, and so do
`CopyToDatabase` when its source conversion does not panic, `UpdateFromSlice`
when moreover its first row is not empty, and `Update` when its source is not
a row-tuple slice without rows. -/
theorem after_auto_close_calls_fail (d : Driver) (s : Storage) (tr : List Call) (qp : QueryParams)
    (n : Int) (hclose : s.settings.AutoClose = true) (hauto : s.settings.AutoCommit = true)
    (hd : ClosedFails d)
    (hok : (ExecuteQuery d s tr qp).out = .ret n none) (hn : n ≠ 0) :
    (∃ c, s.conn = some c ∧ (ExecuteQuery d s tr qp).s.conn = some c ∧
      Call.close c ∈ (ExecuteQuery d s tr qp).trace) ∧
    (ExecuteQuery d s tr qp).s.tx.isSome = true ∧
    (∀ qp2, (RunQuery d (ExecuteQuery d s tr qp).s
      (ExecuteQuery d s tr qp).trace qp2).out.failed = true) ∧
    (∀ qp2, (ExecuteQuery d (ExecuteQuery d s tr qp).s
      (ExecuteQuery d s tr qp).trace qp2).out.failed = true) ∧
    (∀ cp, sourceRows cp.Source ≠ .panic →
      (CopyToDatabase d (ExecuteQuery d s tr qp).s
        (ExecuteQuery d s tr qp).trace cp).out.failed = true) ∧
    (∀ cp, sourceRows cp.Source ≠ .panic →
      (∀ data, sourceRows cp.Source = .ret data none → data.head? ≠ some []) →
      (UpdateFromSlice d (ExecuteQuery d s tr qp).s
        (ExecuteQuery d s tr qp).trace cp).out.failed = true) ∧
    (∀ cp, cp.Source ≠ .rows [] →
      (Update d (ExecuteQuery d s tr qp).s
        (ExecuteQuery d s tr qp).trace cp).out.failed = true) := by
  obtain ⟨c, t, hc, hc1, ht1, hset, hk⟩ := ExecuteQuery_success d s tr qp n hclose hauto hok hn
  have hauto1 : (ExecuteQuery d s tr qp).s.settings.AutoCommit = true := by
    rw [hset]; exact hauto
  refine ⟨⟨c, hc, hc1, hk⟩, by simp [ht1], ?_, ?_, ?_, ?_, ?_⟩
  · intro qp2
    exact RunQuery_closed d hd _ _ qp2 c c t hc1 ht1 hauto1 hk
  · intro qp2
    exact ExecuteQuery_closed d hd _ _ qp2 c c t hc1 ht1 hauto1 hk
  · intro cp h1
    exact CopyToDatabase_closed d hd _ _ cp c c t hc1 ht1 hauto1 hk h1
  · intro cp h1 h2
    exact UpdateFromSlice_closed d hd _ _ cp c c t hc1 ht1 hauto1 hk h1 h2
  · intro cp h1
    exact Update_closed d hd _ _ cp c c t hc1 ht1 hk h1

/-- The strict driver and a fresh session with both flags set: a second
`ExecuteQuery` returns an error. -/
theorem after_auto_close_calls_fail_instance :
    (freshSession true true).settings.AutoClose = true ∧
    (freshSession true true).settings.AutoCommit = true ∧
    ClosedFails strictDriver ∧
    (ExecuteQuery strictDriver (freshSession true true) [] sampleQuery).out = .ret 1 none ∧
    (1 : Int) ≠ 0 ∧
    (ExecuteQuery strictDriver
      (ExecuteQuery strictDriver (freshSession true true) [] sampleQuery).s
      (ExecuteQuery strictDriver (freshSession true true) [] sampleQuery).trace
      sampleQuery).out.failed = true :=
  ⟨rfl, rfl, strictDriver_closedFails, by decide, by decide,
    (after_auto_close_calls_fail strictDriver (freshSession true true) [] sampleQuery 1 rfl rfl
      strictDriver_closedFails (by decide) (by decide)).2.2.2.1 sampleQuery⟩

end Fstorage
